import Mathlib

/-!
A verification development for the XSD-to-code generator of the
`xml_schema` repository, centred on `ComplexType::implement` and its
helpers in `xml_schema_derive/src/xsd/complex_type.rs`.

The `ComplexType` data structure and the functions `implement`,
`get_field_implementation` and `get_integrated_implementation` are
translated from that source file.  The sibling entities (`Sequence`,
`Element`, `Attribute`, `SimpleContent`, `ComplexContent`, annotations)
and external collaborators (the `heck` case converter, `syn::Ident`)
live outside the sampled sources, so they are modelled from the
specification, as flagged on each definition.

Generated code fragments (Rust `TokenStream`s) are embedded
structurally: a generated struct is a record of its name, namespace
metadata, documentation and ordered field list, and a field records its
identifier, wire name, serialization kind and value type.  Token-stream
concatenation inside `quote!` becomes list concatenation.  A call to
`syn::Ident::new` that would panic at runtime is embedded as `none`.
-/

namespace XmlSchema

/-! ## Naming -/

/-- The `.replace('.', "_")` step of `ComplexType::implement` (source line 37):
every `.` character of the schema name becomes `_`. -/
def replaceDot (s : String) : String :=
  ⟨s.data.map (fun c => if c = '.' then '_' else c)⟩

/-- Modelled from the spec:  the ASCII word characters recognised by the
external `heck` case converter (letters and digits); any other character is
a word boundary and is dropped. -/
def wordChar (c : Char) : Bool :=
  decide ((48 ≤ c.toNat ∧ c.toNat ≤ 57) ∨ (65 ≤ c.toNat ∧ c.toNat ≤ 90) ∨
    (97 ≤ c.toNat ∧ c.toNat ≤ 122))

/-- Modelled from the spec:  the word-by-word pass of the external
`to_upper_camel_case` conversion.  The boolean is true when the next word
character starts a new word and must be capitalised; non-word characters
separate words and are dropped. -/
def upperCamelAux : Bool → List Char → List Char
  | _, [] => []
  | capNext, c :: cs =>
    if wordChar c then
      (if capNext then c.toUpper else c.toLower) :: upperCamelAux false cs
    else
      upperCamelAux true cs

/-- Modelled from the spec:  the external `heck::ToUpperCamelCase`
conversion used by `ComplexType::implement`. -/
def toUpperCamelCase (s : String) : String :=
  ⟨upperCamelAux true s.data⟩

/-- The type-name normalisation of `ComplexType::implement` (source
lines 36-39): replace `.` by `_`, then convert to upper camel case. -/
def toTypeName (s : String) : String :=
  toUpperCamelCase (replaceDot s)

/-- Modelled from the spec:  the analogous field-name conversion
(`to_field_name`, spec section 4.1): word characters are lowered, any other
character becomes `_`, after the same `.`-to-`_` replacement. -/
def toFieldName (s : String) : String :=
  ⟨(replaceDot s).data.map (fun c => if wordChar c then c.toLower else c)⟩

/-- Modelled from the spec:  a leading character accepted by
`syn::Ident::new` (ASCII letter or underscore). -/
def identStart (c : Char) : Bool :=
  decide ((65 ≤ c.toNat ∧ c.toNat ≤ 90) ∨ (97 ≤ c.toNat ∧ c.toNat ≤ 122) ∨ c.toNat = 95)

/-- Modelled from the spec:  a continuation character accepted by
`syn::Ident::new` (ASCII word character or underscore). -/
def identContinue (c : Char) : Bool :=
  wordChar c || decide (c.toNat = 95)

/-- Modelled from the spec:  validity of a string as a `syn::Ident`.  The
empty string, a string with an invalid character, and the lone underscore
are rejected (`Ident::new` panics on them). -/
def validIdent (s : String) : Bool :=
  match s.data with
  | [] => false
  | c :: cs => identStart c && cs.all identContinue && !(s == "_")

/-- Modelled from the spec:  `syn::Ident::new`, with the panic on an
invalid identifier embedded as `none`. -/
def identNew (s : String) : Option String :=
  if validIdent s then some s else none

/-! ## Data model

`ComplexType` is translated from the source struct (lines 15-27).  The
entities it owns are not part of the sampled sources and are modelled from
the spec (section 3); an `Element` may hold an inline `ComplexType`, which
forces the three types into one mutual inductive. -/

/-- Modelled from the spec:  an XSD attribute — name, optional referenced
type and use (required or optional). -/
structure Attribute where
  name : String
  kind : Option String
  required : Bool
deriving DecidableEq

/-- Modelled from the spec:  an inline simple-type definition; its content
is not consulted by the functions verified here. -/
structure SimpleType where
  base : String
deriving DecidableEq

/-- Modelled from the spec:  simple content — the type's text value is the
payload, with attributes allowed alongside. -/
structure SimpleContent where
  attributes : List Attribute
deriving DecidableEq

/-- Modelled from the spec:  complex content — the content model of a named
base type, flattened into the containing type. -/
structure ComplexContent where
  base : String
deriving DecidableEq

/-- Modelled from the spec:  an annotation, documentation text rendered as
a doc comment and never affecting the data shape. -/
structure Annot where
  content : String
deriving DecidableEq

/-- Modelled from the spec:  the value of `maxOccurs` — a bound or the
literal `unbounded`. -/
inductive MaxOccurs : Type where
  | bounded : Nat → MaxOccurs
  | unbounded : MaxOccurs
deriving DecidableEq

mutual

/-- The `ComplexType` struct of the source (lines 15-27): schema name,
attribute list, optional sequence, optional simple content, optional
complex content and optional annotation (field `annot` here). -/
inductive ComplexType : Type where
  | mk : String → List Attribute → Option Sequence → Option SimpleContent →
      Option ComplexContent → Option Annot → ComplexType

/-- Modelled from the spec:  a sequence is an ordered list of elements. -/
inductive Sequence : Type where
  | mk : List Element → Sequence

/-- Modelled from the spec:  an element — name, optional named type
reference `kind`, optional inline simple or complex type, optional
reference to a global element, cardinality bounds, and the computed
`recursive` flag (false as parsed). -/
inductive Element : Type where
  | mk : String → Option String → Option SimpleType → Option ComplexType →
      Option String → Option Nat → Option MaxOccurs → Bool → Element

end

def ComplexType.name : ComplexType → String
  | .mk n _ _ _ _ _ => n

def ComplexType.attributes : ComplexType → List Attribute
  | .mk _ a _ _ _ _ => a

def ComplexType.sequence : ComplexType → Option Sequence
  | .mk _ _ s _ _ _ => s

def ComplexType.simple_content : ComplexType → Option SimpleContent
  | .mk _ _ _ sc _ _ => sc

def ComplexType.complex_content : ComplexType → Option ComplexContent
  | .mk _ _ _ _ cc _ => cc

def ComplexType.annot : ComplexType → Option Annot
  | .mk _ _ _ _ _ a => a

def Sequence.elements : Sequence → List Element
  | .mk es => es

def Element.name : Element → String
  | .mk n _ _ _ _ _ _ _ => n

def Element.kind : Element → Option String
  | .mk _ k _ _ _ _ _ _ => k

def Element.simple_type : Element → Option SimpleType
  | .mk _ _ st _ _ _ _ _ => st

def Element.complex_type : Element → Option ComplexType
  | .mk _ _ _ ct _ _ _ _ => ct

def Element.refers : Element → Option String
  | .mk _ _ _ _ r _ _ _ => r

def Element.min_occurences : Element → Option Nat
  | .mk _ _ _ _ _ mn _ _ => mn

def Element.max_occurences : Element → Option MaxOccurs
  | .mk _ _ _ _ _ _ mx _ => mx

def Element.recursive : Element → Bool
  | .mk _ _ _ _ _ _ _ r => r

/-- Modelled from the spec:  the schema context — namespace prefix table,
read-only during generation. -/
structure XsdContext where
  namespaces : List (String × String)

/-! ## Generated-code fragments (structural token streams) -/

/-- A Rust value type appearing in a generated field. -/
inductive RustType : Type where
  | named : String → RustType
  | path : String → String → RustType
  | boxed : RustType → RustType
  | optional : RustType → RustType
  | vec : RustType → RustType
deriving DecidableEq

/-- One generated struct field: identifier, wire name and optional wire
prefix (serialization metadata), whether it is attribute-kind rather than
element-kind, whether it is flattened, and its value type. -/
structure Field where
  name : String
  rename : String
  pfx : Option String
  isAttribute : Bool
  flatten : Bool
  ty : RustType
deriving DecidableEq

/-- One generated struct: documentation, namespace metadata, type name and
ordered field list. -/
structure Struct where
  docs : Option String
  nsDef : String
  name : String
  fields : List Field
deriving DecidableEq

/-- The full result of `ComplexType::implement`: the primary struct
followed by the hoisted sibling sub-type definitions. -/
structure Output where
  main : Struct
  subTypes : List Struct
deriving DecidableEq

/-! ## RecursionMarker -/

/-- Sets the `recursive` flag of an element (the assignment
`element.recursive = true` at source line 46). -/
def setRecursive : Element → Element
  | .mk n k st ct r mn mx _ => .mk n k st ct r mn mx true

/-- The per-element recursion check of `ComplexType::implement` (source
lines 45-47): when `kind` is present and equals the complex type's name,
set the `recursive` flag; `Option.getD` stands for the guarded `unwrap`. -/
def markElement (name : String) (e : Element) : Element :=
  if e.kind.isSome && name == e.kind.getD "" then setRecursive e else e

/-- The per-element recursion check with the `unwrap` made explicit: the
`none` branch is the panic that `unwrap` would raise on an absent `kind`. -/
def markElementChecked (name : String) (e : Element) : Option Element :=
  if e.kind.isSome then
    match e.kind with
    | some k => some (if name == k then setRecursive e else e)
    | none => none
  else
    some e

/-- The recursion-marking pass over a sequence (source lines 43-49),
applied to the working copy. -/
def markRecursion (name : String) (s : Sequence) : Sequence :=
  .mk (s.elements.map (markElement name))

/-- The element-list marking pass with the explicit-`unwrap` element
check. -/
def markElementsChecked (name : String) : List Element → Option (List Element)
  | [] => some []
  | e :: es =>
    match markElementChecked name e, markElementsChecked name es with
    | some e2, some es2 => some (e2 :: es2)
    | _, _ => none

/-- The recursion-marking pass with the explicit-`unwrap` element check. -/
def markRecursionChecked (name : String) (s : Sequence) : Option Sequence :=
  (markElementsChecked name s.elements).map Sequence.mk

/-! ## Rendering of the owned entities (modelled from the spec) -/

/-- Modelled from the spec:  the base value type of an element's field — a
named reference into the generated-types module when `kind` or `refers` is
present, otherwise the synthesized name of its hoisted inline type. -/
def Element.baseType (e : Element) : RustType :=
  match e.kind with
  | some k => .path "xml_schema_types" (toTypeName k)
  | none =>
    match e.refers with
    | some r => .path "xml_schema_types" (toTypeName r)
    | none => .named (toTypeName e.name)

/-- Modelled from the spec:  multi cardinality — `maxOccurs` greater than
one or unbounded. -/
def Element.isMulti (e : Element) : Bool :=
  match e.max_occurences with
  | some (.bounded n) => decide (1 < n)
  | some .unbounded => true
  | none => false

/-- Modelled from the spec:  optional cardinality — `minOccurs = 0` with a
`maxOccurs` of at most one. -/
def Element.isOptional (e : Element) : Bool :=
  !e.isMulti && e.min_occurences == some 0

/-- Modelled from the spec (section 4.3 step 3):  the field type of an
element — the base type, boxed when the element is marked recursive, then
wrapped by the collection or optional wrapper demanded by cardinality. -/
def Element.fieldType (e : Element) : RustType :=
  let base := e.baseType
  let base := if e.recursive then .boxed base else base
  if e.isMulti then .vec base
  else if e.isOptional then .optional base
  else base

/-- Modelled from the spec:  the generated field of one element — the
identifier from `to_field_name`, the element's name as wire name, the
optional wire prefix, element-kind serialization, and the cardinality- and
recursion-wrapped value type. -/
def Element.toField (e : Element) (pfx : Option String) : Field :=
  { name := toFieldName e.name, rename := e.name, pfx := pfx,
    isAttribute := false, flatten := false, ty := e.fieldType }

/-- Modelled from the spec:  `Sequence::implement` renders one field per
element, in declaration order. -/
def Sequence.fieldsImpl (s : Sequence) (pfx : Option String) : List Field :=
  s.elements.map (fun e => e.toField pfx)

/-- Modelled from the spec:  `Sequence::get_field_implementation` — the
field list a sequence contributes for flattening. -/
def Sequence.getFieldImplementation (s : Sequence) (_context : XsdContext)
    (pfx : Option String) : List Field :=
  s.fieldsImpl pfx

/-- Modelled from the spec (section 4.4):  the hoisted sibling definition
of one element with an inline complex type, named after the element;
rendered one level deep, which covers every input whose inline types are
themselves inline-free. -/
def Element.hoistedStruct (e : Element) (nsDef : String) (pfx : Option String) :
    Option Struct :=
  match e.complex_type with
  | some ct =>
    some { docs := none, nsDef := nsDef, name := toTypeName e.name,
           fields := ((ComplexType.sequence ct).map (fun s => s.fieldsImpl pfx)).getD [] }
  | none => none

/-- Modelled from the spec:  `Sequence::get_sub_types_implementation` —
the hoisted sibling definitions of the elements with inline types. -/
def Sequence.getSubTypesImplementation (s : Sequence) (_context : XsdContext)
    (nsDef : String) (pfx : Option String) : List Struct :=
  s.elements.filterMap (fun e => e.hoistedStruct nsDef pfx)

/-- Modelled from the spec:  the single text-valued field contributed by
simple content. -/
def textValueField (pfx : Option String) : Field :=
  { name := "content", rename := "content", pfx := pfx,
    isAttribute := false, flatten := false, ty := .named "String" }

/-- Modelled from the spec:  the generated field of one attribute —
attribute-kind serialization, the named type when referenced (a plain text
type otherwise), wrapped as optional unless the attribute is required. -/
def Attribute.toField (a : Attribute) (pfx : Option String) : Field :=
  let base := match a.kind with
    | some k => RustType.path "xml_schema_types" (toTypeName k)
    | none => RustType.named "String"
  { name := toFieldName a.name, rename := a.name, pfx := pfx,
    isAttribute := true, flatten := false,
    ty := if a.required then base else .optional base }

/-- Modelled from the spec:  `SimpleContent::implement` — the text-valued
field followed by the fields of the attributes declared on the simple
content. -/
def SimpleContent.fieldsImpl (sc : SimpleContent) (pfx : Option String) : List Field :=
  textValueField pfx :: sc.attributes.map (fun a => a.toField pfx)

/-- Modelled from the spec:  `SimpleContent::get_field_implementation`. -/
def SimpleContent.getFieldImplementation (sc : SimpleContent) (_context : XsdContext)
    (pfx : Option String) : List Field :=
  sc.fieldsImpl pfx

/-- Modelled from the spec:  `ComplexContent::get_field_implementation` —
the single field referencing the base type, to be flattened by the
caller. -/
def ComplexContent.getFieldImplementation (cc : ComplexContent) (_context : XsdContext)
    (pfx : Option String) : Field :=
  { name := toFieldName cc.base, rename := cc.base, pfx := pfx,
    isAttribute := false, flatten := false,
    ty := .path "xml_schema_types" (toTypeName cc.base) }

/-- The `#[yaserde(flatten)]` wrapper that `ComplexType::implement` puts
around the complex-content field (source lines 71-74). -/
def Field.setFlatten (f : Field) : Field :=
  { f with flatten := true }

/-- Modelled from the spec:  an annotation renders as its documentation
text. -/
def Annot.implement (a : Annot) : String :=
  a.content

/-! ## ComplexType::implement and its two helpers (from the source) -/

/-- The sequence-derived fields of `ComplexType::implement`: the working
copy of the sequence is marked and rendered (source lines 42-57). -/
def ComplexType.sequenceFields (self : ComplexType) (pfx : Option String) : List Field :=
  ((self.sequence.map (markRecursion self.name)).map (fun s => s.fieldsImpl pfx)).getD []

/-- The simple-content fields of `ComplexType::implement` (source lines
60-64). -/
def ComplexType.simpleContentFields (self : ComplexType) (pfx : Option String) : List Field :=
  (self.simple_content.map (fun sc => sc.fieldsImpl pfx)).getD []

/-- The complex-content field of `ComplexType::implement`, flattened
(source lines 66-76). -/
def ComplexType.complexContentFields (self : ComplexType) (context : XsdContext)
    (pfx : Option String) : List Field :=
  (self.complex_content.map
    (fun cc => [Field.setFlatten (cc.getFieldImplementation context pfx)])).getD []

/-- The attribute-derived fields of `ComplexType::implement` (source lines
78-82). -/
def ComplexType.attributeFields (self : ComplexType) (pfx : Option String) : List Field :=
  self.attributes.map (fun a => a.toField pfx)

/-- `ComplexType::implement` (source lines 30-109), in state-passing
style: the first component is the generated output (`none` embeds the
`Ident::new` panic on an invalid normalised name), the second is the value
of `self` after the call — the method takes `&self` and the marking pass
runs on a clone (`binding`), so `self` is returned unchanged.  The field
list concatenates, in source order, the sequence fields, the
simple-content fields, the flattened complex-content field and the
attribute fields (source lines 100-105). -/
def ComplexType.implement (self : ComplexType) (nsDef : String) (pfx : Option String)
    (context : XsdContext) : Option Output × ComplexType :=
  let res :=
    match identNew (toTypeName self.name) with
    | none => none
    | some structName =>
      let binding := self.sequence
      let selfSequence := binding.map (markRecursion self.name)
      let seqFields := (selfSequence.map (fun s => s.fieldsImpl pfx)).getD []
      let scFields := (self.simple_content.map (fun sc => sc.fieldsImpl pfx)).getD []
      let ccFields := (self.complex_content.map
        (fun cc => [Field.setFlatten (cc.getFieldImplementation context pfx)])).getD []
      let attrFields := self.attributes.map (fun a => a.toField pfx)
      let subTypes := (selfSequence.map
        (fun s => s.getSubTypesImplementation context nsDef pfx)).getD []
      let docs := self.annot.map Annot.implement
      some { main := { docs := docs, nsDef := nsDef, name := structName,
                       fields := seqFields ++ scFields ++ ccFields ++ attrFields },
             subTypes := subTypes }
  (res, self)

/-- `ComplexType::get_field_implementation` (source lines 113-131):
delegate to the sequence when present, otherwise to the simple content
when present, otherwise contribute nothing. -/
def ComplexType.getFieldImplementation (self : ComplexType) (context : XsdContext)
    (pfx : Option String) : List Field :=
  if self.sequence.isSome then
    (self.sequence.map (fun s => s.getFieldImplementation context pfx)).getD []
  else
    (self.simple_content.map (fun sc => sc.getFieldImplementation context pfx)).getD []

/-- `ComplexType::get_integrated_implementation` (source lines 133-144):
a plain text type under simple content; the list-wrapper named by
`parent_name` under a sequence (through `Ident::new`, whose panic is
`none`); a plain text type by default. -/
def ComplexType.getIntegratedImplementation (self : ComplexType) (parentName : String) :
    Option RustType :=
  if self.simple_content.isSome then some (.named "String")
  else if self.sequence.isSome then (identNew parentName).map (fun n => .named n)
  else some (.named "String")

/-! ## The literal test case of the source (tests::recursive, lines
152-195) -/

/-- The context built from the empty schema in the source test. -/
def testContext : XsdContext :=
  ⟨[]⟩

/-- The element `next` of the source test: `kind recursive`, default
cardinality, `recursive` false as parsed. -/
def nextElement : Element :=
  .mk "next" (some "recursive") none none none none none false

/-- The complex type `recursive` of the source test: one-element sequence,
nothing else. -/
def recursiveCT : ComplexType :=
  .mk "recursive" [] (some (.mk [nextElement])) none none none

/-- The output the source test expects: struct `Recursive` with the single
field `next` of boxed self-referential type and wire name `next`. -/
def expectedRecursiveOutput : Output :=
  { main := { docs := none, nsDef := "", name := "Recursive",
              fields := [{ name := "next", rename := "next", pfx := none,
                           isAttribute := false, flatten := false,
                           ty := .boxed (.path "xml_schema_types" "Recursive") }] },
    subTypes := [] }

/-! ## Supporting lemmas -/

/-- Packing a small codepoint into a character and back is the
identity. -/
theorem toNat_ofNat_lt {n : Nat} (h : n < 55296) : (Char.ofNat n).toNat = n := by
  have hv : n.isValidChar := Or.inl h
  simp [Char.ofNat, dif_pos hv, Char.ofNatAux, Char.toNat, UInt32.toNat]

/-- Uppercasing a word character never yields the dot character. -/
theorem toUpper_ne_dot {c : Char} (h : wordChar c = true) : c.toUpper ≠ '.' := by
  have hr := of_decide_eq_true h
  intro heq
  have h46 : c.toUpper.toNat = 46 := by rw [heq]; rfl
  unfold Char.toUpper at h46
  simp only at h46
  split at h46
  · rw [toNat_ofNat_lt (by omega)] at h46
    omega
  · omega

/-- Lowercasing a word character never yields the dot character. -/
theorem toLower_ne_dot {c : Char} (h : wordChar c = true) : c.toLower ≠ '.' := by
  have hr := of_decide_eq_true h
  intro heq
  have h46 : c.toLower.toNat = 46 := by rw [heq]; rfl
  unfold Char.toLower at h46
  simp only at h46
  split at h46
  · rw [toNat_ofNat_lt (by omega)] at h46
    omega
  · omega

/-- The camel-case word pass never emits a dot. -/
theorem dot_not_mem_upperCamelAux (b : Bool) (l : List Char) :
    '.' ∉ upperCamelAux b l := by
  induction l generalizing b with
  | nil => simp [upperCamelAux]
  | cons c cs ih =>
    simp only [upperCamelAux]
    split
    · next hw =>
      intro hmem
      rcases List.mem_cons.mp hmem with h | h
      · revert h
        split
        · exact fun h => toUpper_ne_dot hw h.symm
        · exact fun h => toLower_ne_dot hw h.symm
      · exact ih false h
    · exact ih true

/-- The element-level recursion check with the explicit unwrap agrees with
the total one: the unwrap is guarded, so its failure branch is never
taken. -/
theorem markElementChecked_eq (name : String) (e : Element) :
    markElementChecked name e = some (markElement name e) := by
  cases e with
  | mk n k st ct r mn mx rc =>
    cases k with
    | none => simp [markElementChecked, markElement, Element.kind]
    | some k0 =>
      simp [markElementChecked, markElement, Element.kind, Option.getD]

/-- A successful `identNew` certifies validity of its argument. -/
theorem identNew_isSome {s n : String} (h : identNew s = some n) :
    validIdent s = true := by
  by_cases hv : validIdent s = true
  · exact hv
  · simp [identNew, hv] at h

/-! ## The claims -/

/-- Claim C1: for every complex type with a sequence, the marking pass of
`implement` sets the `recursive` flag of every element whose `kind` is
present and equals the complex type's name before rendering, and on the
literal source test case (`ComplexType` named `recursive` with one element
`next` of kind `recursive` and default cardinality) `implement` generates
the type `Recursive` whose field `next` has a boxed self-referential type
and wire name `next`. -/
theorem recursion_marking_and_literal_case :
    (∀ (name : String) (e : Element), e.kind = some name →
      (markElement name e).recursive = true) ∧
    (∀ (name : String) (s : Sequence),
      (markRecursion name s).elements = s.elements.map (markElement name)) ∧
    (recursiveCT.implement "" none testContext).1 = some expectedRecursiveOutput := by
  refine ⟨?_, ?_, by decide⟩
  · intro name e hk
    cases e with
    | mk n k st ct r mn mx rc =>
      have hk' : k = some name := hk
      subst hk'
      simp [markElement, Element.kind, setRecursive, Element.recursive]
  · intro name s
    rfl

/-- Witness for claim C1 at the literal test data. -/
theorem recursion_marking_and_literal_case_witness :
    (markElement "recursive" nextElement).recursive = true :=
  recursion_marking_and_literal_case.1 "recursive" nextElement (by decide)

/-- Claim C2: `implement` leaves its input unchanged — the marking pass
runs on a working copy of the sequence, so the post-call value of the
complex type (including every element's `recursive` flag) equals its value
before the call. -/
theorem implement_preserves_self :
    ∀ (self : ComplexType) (nsDef : String) (pfx : Option String) (context : XsdContext),
      (self.implement nsDef pfx context).2 = self := by
  intro self nsDef pfx context
  rfl

/-- Claim C3: whenever `implement` succeeds, the field list of the emitted
struct is, in order, the sequence-derived fields, then the simple-content
fields, then the flattened complex-content field, then the
attribute-derived fields; in particular every sequence field precedes
every attribute field. -/
theorem implement_field_order :
    ∀ (self : ComplexType) (nsDef : String) (pfx : Option String) (context : XsdContext)
      (out : Output), (self.implement nsDef pfx context).1 = some out →
      out.main.fields =
        self.sequenceFields pfx ++ self.simpleContentFields pfx ++
          self.complexContentFields context pfx ++ self.attributeFields pfx := by
  intro self nsDef pfx context out h
  simp only [ComplexType.implement] at h
  split at h
  · exact absurd h (by simp)
  · rw [Option.some_inj] at h
    subst h
    rfl

/-- Witness for claim C3 at the literal test data. -/
theorem implement_field_order_witness :
    expectedRecursiveOutput.main.fields =
      recursiveCT.sequenceFields none ++ recursiveCT.simpleContentFields none ++
        recursiveCT.complexContentFields testContext none ++
        recursiveCT.attributeFields none :=
  implement_field_order recursiveCT "" none testContext expectedRecursiveOutput (by decide)

/-- Claim C4: the generated type name replaces every dot by an underscore
and then converts to upper camel case, `my.recursive-type` maps to
`MyRecursiveType`, the conversion is deterministic, and no dot character
ever appears in the output identifier. -/
theorem toTypeName_spec :
    (∀ s : String, toTypeName s = toUpperCamelCase (replaceDot s)) ∧
    toTypeName "my.recursive-type" = "MyRecursiveType" ∧
    (∀ s : String, toTypeName s = toTypeName s) ∧
    (∀ s : String, '.' ∉ (toTypeName s).data) := by
  refine ⟨fun s => rfl, by decide, fun s => rfl, ?_⟩
  intro s
  exact dot_not_mem_upperCamelAux true (replaceDot s).data

/-- Claim C5: `get_integrated_implementation` yields the plain text type
under simple content, the list-wrapper named by `parent_name` under a
sequence, and the plain text type when neither is present. -/
theorem getIntegratedImplementation_spec :
    ∀ (self : ComplexType) (parentName : String),
      (self.simple_content.isSome = true →
        self.getIntegratedImplementation parentName = some (.named "String")) ∧
      (self.simple_content = none → self.sequence.isSome = true →
        validIdent parentName = true →
        self.getIntegratedImplementation parentName = some (.named parentName)) ∧
      (self.simple_content = none → self.sequence = none →
        self.getIntegratedImplementation parentName = some (.named "String")) := by
  intro self parentName
  refine ⟨?_, ?_, ?_⟩
  · intro h
    simp [ComplexType.getIntegratedImplementation, h]
  · intro h1 h2 hv
    simp [ComplexType.getIntegratedImplementation, h1, h2, identNew, hv]
  · intro h1 h2
    simp [ComplexType.getIntegratedImplementation, h1, h2]

/-- Witness for claim C5 at the literal test data. -/
theorem getIntegratedImplementation_spec_witness :
    recursiveCT.getIntegratedImplementation "Parent" = some (.named "Parent") :=
  (getIntegratedImplementation_spec recursiveCT "Parent").2.1 rfl rfl (by decide)

/-- Claim C6: `get_field_implementation` delegates to the sequence when
one is present, and otherwise to the simple content when one is
present. -/
theorem getFieldImplementation_delegates :
    ∀ (self : ComplexType) (context : XsdContext) (pfx : Option String),
      (∀ s, self.sequence = some s →
        self.getFieldImplementation context pfx = s.getFieldImplementation context pfx) ∧
      (self.sequence = none → ∀ sc, self.simple_content = some sc →
        self.getFieldImplementation context pfx = sc.getFieldImplementation context pfx) := by
  intro self context pfx
  constructor
  · intro s hs
    simp [ComplexType.getFieldImplementation, hs]
  · intro hn sc hsc
    simp [ComplexType.getFieldImplementation, hn, hsc]

/-- Witness for claim C6 at the literal test data. -/
theorem getFieldImplementation_delegates_witness :
    recursiveCT.getFieldImplementation testContext none =
      Sequence.getFieldImplementation (.mk [nextElement]) testContext none :=
  (getFieldImplementation_delegates recursiveCT testContext none).1 (.mk [nextElement]) rfl

/-- Claim C7 counterexample: the anonymous complex type with empty name
satisfies every assumption of the claim — no sequence, no simple content,
no complex content, no attributes — yet `implement` fails on it (the
`Ident::new` panic), so `implement` does not succeed for every such
complex type. -/
theorem implement_empty_ct_fails :
    ((ComplexType.mk "" [] none none none none).implement "" none testContext).1 = none ∧
    (ComplexType.mk "" [] none none none none).sequence = none ∧
    (ComplexType.mk "" [] none none none none).simple_content = none ∧
    (ComplexType.mk "" [] none none none none).complex_content = none ∧
    (ComplexType.mk "" [] none none none none).attributes = [] :=
  ⟨rfl, rfl, rfl, rfl, rfl⟩

/-- Claim C7 (amended): for every complex type whose normalised name is a
valid identifier and that has no sequence, no simple content, no complex
content and no attributes, `implement` succeeds and the emitted struct has
an empty field list. -/
theorem implement_bare_ct_empty_fields :
    ∀ (self : ComplexType) (nsDef : String) (pfx : Option String) (context : XsdContext),
      validIdent (toTypeName self.name) = true →
      self.sequence = none → self.simple_content = none →
      self.complex_content = none → self.attributes = [] →
      ∃ out, (self.implement nsDef pfx context).1 = some out ∧ out.main.fields = [] := by
  intro self nsDef pfx context hv h1 h2 h3 h4
  refine ⟨{ main := { docs := self.annot.map Annot.implement, nsDef := nsDef,
                      name := toTypeName self.name, fields := [] },
            subTypes := [] }, ?_, rfl⟩
  simp [ComplexType.implement, identNew, hv, h1, h2, h3, h4]

/-- Witness for the amended claim C7 at a concrete bare complex type. -/
theorem implement_bare_ct_empty_fields_witness :
    ∃ out, ((ComplexType.mk "empty" [] none none none none).implement
      "" none testContext).1 = some out ∧ out.main.fields = [] :=
  implement_bare_ct_empty_fields (ComplexType.mk "empty" [] none none none none)
    "" none testContext (by decide) rfl rfl rfl rfl

/-- Claim C8: recursion detection never errors — on every sequence the
marking pass with the element `unwrap` made explicit succeeds and agrees
with the total pass, because the unwrap is guarded by the presence
check. -/
theorem recursion_marking_never_errors :
    ∀ (self : ComplexType) (s : Sequence), self.sequence = some s →
      markRecursionChecked self.name s = some (markRecursion self.name s) := by
  intro self s _
  cases s with
  | mk es =>
    simp only [markRecursionChecked, markRecursion, Sequence.elements]
    have : ∀ (l : List Element),
        markElementsChecked self.name l = some (l.map (markElement self.name)) := by
      intro l
      induction l with
      | nil => rfl
      | cons e es ih =>
        simp [markElementsChecked, markElementChecked_eq, ih]
    simp [this]

/-- Witness for claim C8 at the literal test data. -/
theorem recursion_marking_never_errors_witness :
    markRecursionChecked (ComplexType.name recursiveCT) (.mk [nextElement]) =
      some (markRecursion (ComplexType.name recursiveCT) (.mk [nextElement])) :=
  recursion_marking_never_errors recursiveCT (.mk [nextElement]) rfl

/-- Claim C9: `implement` is not total at the public interface — whenever
it succeeds the normalised name is a valid identifier, and on the
anonymous complex type with the empty name (allowed by the data model) the
identifier construction fails. -/
theorem implement_needs_valid_ident :
    (∀ (self : ComplexType) (nsDef : String) (pfx : Option String) (context : XsdContext)
      (out : Output), (self.implement nsDef pfx context).1 = some out →
      validIdent (toTypeName self.name) = true) ∧
    (ComplexType.name (.mk "" [] (some (.mk [])) none none none) = "" ∧
      ((ComplexType.mk "" [] (some (.mk [])) none none none).implement
        "" none testContext).1 = none) := by
  refine ⟨?_, rfl, rfl⟩
  intro self nsDef pfx context out h
  simp only [ComplexType.implement] at h
  cases hid : identNew (toTypeName self.name) with
  | none => rw [hid] at h; simp at h
  | some n => exact identNew_isSome hid

/-- Witness for claim C9 at the literal test data. -/
theorem implement_needs_valid_ident_witness :
    validIdent (toTypeName (ComplexType.name recursiveCT)) = true :=
  implement_needs_valid_ident.1 recursiveCT "" none testContext
    expectedRecursiveOutput (by decide)

/-- Claim C10: `get_field_implementation` depends only on the sequence and
simple-content fields — when both are absent it returns the empty field
list even in the presence of complex content or attributes, and two
complex types agreeing on those two fields get equal results. -/
theorem getFieldImplementation_ignores_rest :
    (∀ (self : ComplexType) (context : XsdContext) (pfx : Option String),
      self.sequence = none → self.simple_content = none →
      self.getFieldImplementation context pfx = []) ∧
    (∀ (a b : ComplexType) (context : XsdContext) (pfx : Option String),
      a.sequence = b.sequence → a.simple_content = b.simple_content →
      a.getFieldImplementation context pfx = b.getFieldImplementation context pfx) := by
  constructor
  · intro self context pfx h1 h2
    simp [ComplexType.getFieldImplementation, h1, h2]
  · intro a b context pfx h1 h2
    simp only [ComplexType.getFieldImplementation, h1, h2]

/-- Witness for claim C10 at a complex type holding only complex content
and an attribute. -/
theorem getFieldImplementation_ignores_rest_witness :
    ComplexType.getFieldImplementation
      (.mk "withBase" [{ name := "id", kind := none, required := false }]
        none none (some { base := "base" }) none) testContext none = [] :=
  getFieldImplementation_ignores_rest.1
    (.mk "withBase" [{ name := "id", kind := none, required := false }]
      none none (some { base := "base" }) none) testContext none rfl rfl

end XmlSchema
